import Mathlib

/-!
Verification development for the poolmon snapshot-analysis pipeline
(`analyze.py`, class `PoolEntries`).

The pandas data model is shallowly embedded: a DataFrame is a list of
typed columns (name plus pandas dtype string) together with a list of
rows; a cell is a runtime value (int64, float64, object/string or
datetime64 payload).  Each operation of the source is translated into an
executable Lean function on this model; Python exceptions are modelled
with `Except String`.
-/

namespace Poolmon

/-- Runtime value stored in one DataFrame cell.  Python int64 cells are
`Val.i`, float64 cells are `Val.f` (carried as exact rationals; the
source never performs float arithmetic that the claims inspect),
object/string cells are `Val.s`, and datetime64 cells are `Val.d`
(nanoseconds since the epoch). -/
inductive Val where
  | i (n : Int)
  | f (q : Rat)
  | s (v : String)
  | d (t : Int)
deriving DecidableEq

/-- Integer payload of a cell; 0 on non-integer cells.  Used only where
the source has already dispatched on an integer dtype. -/
def Val.toInt : Val → Int
  | .i n => n
  | _ => 0

/-- String payload of a cell; empty on non-string cells. -/
def Val.toStr : Val → String
  | .s v => v
  | _ => ""

/-- Numeric payload of a cell as a rational (int64 and float64 cells);
0 on non-numeric cells. -/
def Val.toRat : Val → Rat
  | .i n => (n : Rat)
  | .f q => q
  | _ => 0

/-- Datetime payload of a cell; 0 on non-datetime cells.  Used only as a
sort key for a column whose dtype is a datetime kind. -/
def Val.dtKey : Val → Int
  | .d t => t
  | _ => 0

/-- Element-wise addition of two cells, as pandas column addition
behaves on the dtypes of this model (`int + int` stays integer,
any float operand gives float, object strings concatenate). -/
def Val.add : Val → Val → Val
  | .i a, .i b => .i (a + b)
  | .i a, .f b => .f ((a : Rat) + b)
  | .f a, .i b => .f (a + (b : Rat))
  | .f a, .f b => .f (a + b)
  | .s a, .s b => .s (a ++ b)
  | _, v => v

/-- One DataFrame column: its label and its pandas dtype rendered as a
string, exactly as `str(df.dtypes[i])` renders it in the source
(for example "int64", "float64", "object", "datetime64[ns]"). -/
structure Col where
  name : String
  dtype : String
deriving DecidableEq

/-- Shallow embedding of a pandas DataFrame: an ordered column schema
and the rows, each row holding one cell per column positionally. -/
structure DataFrame where
  cols : List Col
  rows : List (List Val)
deriving DecidableEq

/-- Position of the first column with the given label, mirroring label
lookup on a DataFrame. -/
def colIdxOf (df : DataFrame) (name : String) : Option Nat :=
  df.cols.findIdx? (fun c => c.name == name)

/-- Default cell used by positional reads that are guarded by schema
hypotheses in the theorems below. -/
def dCell : Val := .s ""

/-- Cell of a row at the column with the given label, when that label
exists in the schema. -/
def getCellByName (df : DataFrame) (r : List Val) (name : String) : Option Val :=
  (colIdxOf df name).map (fun j => r.getD j dCell)

/-!  Encoding detection (`PoolEntries.GetEncoding`).

A file is modelled by its byte sequence; the source reads the first 64
bytes and scans a fixed BOM table, returning the encoding of the first
matching entry and "utf-8" when the resulting list is empty (the bare
`except` catches the `IndexError` of `[...][0]`).  `codecs.BOM_UTF16`
and `codecs.BOM_UTF32` are the native-order marks; on a little-endian
host (the byte order of every platform this tool targets)
`codecs.BOM_UTF16 == codecs.BOM_UTF16_LE`. -/

def BOM_UTF8 : List Nat := [0xEF, 0xBB, 0xBF]

def BOM_UTF16 : List Nat := [0xFF, 0xFE]

def BOM_UTF32_BE : List Nat := [0x00, 0x00, 0xFE, 0xFF]

def BOM_UTF32_LE : List Nat := [0xFF, 0xFE, 0x00, 0x00]

def BOM_UTF16_BE : List Nat := [0xFE, 0xFF]

def BOM_UTF16_LE : List Nat := [0xFF, 0xFE]

/-- The BOM table of `GetEncoding`, in source order. -/
def BOMS : List (List Nat × String) :=
  [(BOM_UTF8, "utf-8"),
   (BOM_UTF16, "utf-16"),
   (BOM_UTF32_BE, "utf-32be"),
   (BOM_UTF32_LE, "utf-32le"),
   (BOM_UTF16_BE, "utf-16be"),
   (BOM_UTF16_LE, "utf-16le")]

/-- Embedding of `PoolEntries.GetEncoding`: take the first 64 bytes of
the file, keep the encodings of every BOM table entry that is a prefix
of those bytes, return the first one, and "utf-8" when none matches. -/
def GetEncoding (file : List Nat) : String :=
  let fbytes := file.take 64
  match (BOMS.filter (fun p => p.1.isPrefixOf fbytes)).head? with
  | some p => p.2
  | none => "utf-8"

/-!  Normalization (`PoolEntries.add_totals_row`).

The source copies row index 0 of the frame, sets its `Tag` cell to
"TOTAL", then walks the columns in schema order and, for each column
whose dtype string starts with "int", overwrites the copied cell with
the column sum over all rows of the input frame; the resulting series is
appended as a new last row. -/

/-- Prefix test on strings, the Lean counterpart of `str.startswith`
(stated on the character data so that concrete instances evaluate). -/
def strStartsWith (s p : String) : Bool := p.data.isPrefixOf s.data

/-- Sum of the integer payloads of column `j` over all rows of the
frame, as `df[colname].sum()` computes it on an integer-dtype column. -/
def intSum (df : DataFrame) (j : Nat) : Int :=
  (df.rows.map (fun r => (r.getD j dCell).toInt)).sum

/-- Label-based cell assignment on a row series: overwrite the cell of
the first column carrying the label; a label absent from the schema is
appended, as pandas series assignment to a fresh label behaves. -/
def setCol (df : DataFrame) (name : String) (v : Val) (r : List Val) : List Val :=
  match colIdxOf df name with
  | some j => r.set j v
  | none => r ++ [v]

/-- One iteration of the totals loop: overwrite position `p.1` with the
column sum when the column dtype at `p` is an integer kind. -/
def totStep (df : DataFrame) (r : List Val) (p : Nat × Col) : List Val :=
  if strStartsWith p.2.dtype ("int") then r.set p.1 (Val.i (intSum df p.1)) else r

/-- The synthesized totals series: row 0 of the frame with `Tag` set to
"TOTAL" and every integer-dtype column overwritten by its column sum,
walking the columns in schema order exactly as the source loop does. -/
def totalRow (df : DataFrame) (r0 : List Val) : List Val :=
  df.cols.enum.foldl (totStep df) (setCol df ("Tag") (Val.s ("TOTAL")) r0)

/-- Embedding of `PoolEntries.add_totals_row`: append the totals series
as a new last row, leaving the input rows untouched.  An empty frame
makes `df.loc[0]` raise. -/
def add_totals_row (df : DataFrame) : Except String DataFrame :=
  match df.rows.head? with
  | none => .error ("KeyError: 0")
  | some r0 => .ok ⟨df.cols, df.rows ++ [totalRow df r0]⟩

/-- Concrete four-column snapshot table: a string `Tag`, a datetime
column, an int64 counter and a float64 counter, with two rows. -/
def C1df : DataFrame :=
  ⟨[⟨"Tag", "object"⟩, ⟨"DateTime", "datetime64[ns]"⟩,
    ⟨"PagedDiff", "int64"⟩, ⟨"FloatCtr", "float64"⟩],
   [[Val.s ("Aa"), Val.d 1, Val.i 3, Val.f 2],
    [Val.s ("Bb"), Val.d 2, Val.i 4, Val.f 5]]⟩

/-!  Consolidation (`PoolEntries.digest`).

The pipeline state mirrors the three fields set in `__init__`:
the buffer of per-file frames (`individual_data_frames`, set to `None`
by `digest`), the consolidated Pool (`pool_entries`, `None` until
`digest` runs) and the `digest_called` flag.  `digest` normalizes every
buffered frame, concatenates them, finds the last column of a datetime
dtype (the loop over the columns keeps reassigning `date_col_name`, so
the last match wins), sorts the Pool ascending by that column and adds
the derived `TotalDiff` column.  The source sorts with the pandas
default `kind='quicksort'`, whose order among equal keys the library
does not specify; this embedding uses a stable insertion sort, and
no result below relies on the order of rows with equal timestamps. -/

/-- Pipeline state of one `PoolEntries` instance. -/
structure PoolEntries where
  individual_data_frames : Option (List DataFrame)
  pool_entries : Option DataFrame
  digest_called : Bool
deriving DecidableEq

/-- Fresh pipeline, as `__init__` builds it. -/
def PoolEntries.init : PoolEntries := ⟨some [], none, false⟩

/-- Sequential normalization of the buffered frames with exception
propagation, as the `for df in self.individual_data_frames` loop
behaves. -/
def mapExc (f : DataFrame → Except String DataFrame) :
    List DataFrame → Except String (List DataFrame)
  | [] => .ok []
  | d :: ds =>
    match f d with
    | .error e => .error e
    | .ok o =>
      match mapExc f ds with
      | .error e => .error e
      | .ok os => .ok (o :: os)

/-- Embedding of `pd.concat`: the rows of every frame in buffer order
under the first frame's schema (the buffered frames share one schema;
on mismatched schemas the source's behavior is undefined, see the
specification).  An empty list raises, as `pd.concat([])` does. -/
def concatDFs : List DataFrame → Except String DataFrame
  | [] => .error ("ValueError: No objects to concatenate")
  | d :: ds => .ok ⟨d.cols, ((d :: ds).map (fun x => x.rows)).flatten⟩

/-- Position of the last column whose dtype string starts with
"datetime": the source loop reassigns `date_col_name` on every match,
so the last datetime column of the schema wins. -/
def detectDateColIdx (cols : List Col) : Option Nat :=
  cols.enum.foldl
    (fun acc p => if strStartsWith p.2.dtype ("datetime") then some p.1 else acc) none

/-- Insert a row into a run of rows kept ascending by the datetime key
of column `jd`; a row is placed after every earlier row with a key not
exceeding its own. -/
def insRow (jd : Nat) (x : List Val) : List (List Val) → List (List Val)
  | [] => [x]
  | y :: ys =>
    if (y.getD jd dCell).dtKey < (x.getD jd dCell).dtKey
    then y :: insRow jd x ys
    else x :: y :: ys

/-- Sort the rows ascending by the datetime key of column `jd`
(stable; see the section comment on the source's quicksort). -/
def sortRowsByKey (jd : Nat) (rows : List (List Val)) : List (List Val) :=
  rows.foldr (insRow jd) []

/-- Embedding of `self.pool_entries['TotalDiff'] = self.pool_entries['PagedDiff']
+ self.pool_entries['NonPagedDiff']`: element-wise sum of the two
columns assigned to the `TotalDiff` label, overwriting it when present
and appending a new column otherwise; a missing operand column raises.
The dtype recorded for a fresh column is unobserved by every later
operation of the source. -/
def addTotalDiff (df : DataFrame) : Except String DataFrame :=
  match colIdxOf df ("PagedDiff"), colIdxOf df ("NonPagedDiff") with
  | some jp, some jn =>
    match colIdxOf df ("TotalDiff") with
    | some jt =>
      .ok ⟨df.cols,
        df.rows.map (fun r => r.set jt (Val.add (r.getD jp dCell) (r.getD jn dCell)))⟩
    | none =>
      .ok ⟨df.cols ++ [⟨"TotalDiff", "int64"⟩],
        df.rows.map (fun r => r ++ [Val.add (r.getD jp dCell) (r.getD jn dCell)])⟩
  | _, _ => .error ("KeyError: PagedDiff or NonPagedDiff")

/-- Embedding of `PoolEntries.digest`: refuse a repeated call, normalize
every buffered frame, concatenate, sort by the detected datetime
column, add `TotalDiff`, store the Pool and drop the buffer. -/
def digest (s : PoolEntries) : Except String (DataFrame × PoolEntries) :=
  if s.digest_called then .error ("digest() called again")
  else
    match s.individual_data_frames with
    | none => .error ("TypeError: NoneType is not iterable")
    | some dfs =>
      match mapExc add_totals_row dfs with
      | .error e => .error e
      | .ok normed =>
        match concatDFs normed with
        | .error e => .error e
        | .ok pooled =>
          match detectDateColIdx pooled.cols with
          | none => .error ("KeyError: None")
          | some jd =>
            match addTotalDiff ⟨pooled.cols, sortRowsByKey jd pooled.rows⟩ with
            | .error e => .error e
            | .ok final => .ok (final, ⟨none, some final, true⟩)

/-- Schema shared by the snapshot fixtures: the three text/timestamp
columns of a poolmon export followed by three int64 counters. -/
def fx1cols : List Col :=
  [⟨"Tag", "object"⟩, ⟨"DateTime", "datetime64[ns]"⟩, ⟨"DateTimeUTC", "datetime64[ns]"⟩,
   ⟨"TotalUsedBytes", "int64"⟩, ⟨"PagedDiff", "int64"⟩, ⟨"NonPagedDiff", "int64"⟩]

/-- One ingested snapshot file with two tags. -/
def fx1df : DataFrame :=
  ⟨fx1cols,
   [[Val.s ("Aa"), Val.d 1, Val.d 1, Val.i 10, Val.i 1, Val.i 2],
    [Val.s ("Bb"), Val.d 2, Val.d 2, Val.i 20, Val.i 3, Val.i 4]]⟩

/-- Pipeline state after ingesting `fx1df`, before digestion. -/
def fx1s0 : PoolEntries := ⟨some [fx1df], none, false⟩

/-!  Read operations and selection
(`get_df`, `get_all_tags`, `get_highest_tags`, `get_most_changed_tags`).

`get_df` and `get_all_tags` digest first when the pipeline has not
digested yet; the two selection operations read `self.pool_entries`
directly (they carry no such guard in the source) and mutate the
`ignore_tags` list they receive by appending "TOTAL" before any other
work.  Mutation of the caller's list is modelled by returning the list
as it stands after the call next to the result; Python's one shared
default-argument object is modelled by threading that returned list
into the next call that omits the argument.  The counters ranked by the
selection operations are int64-valued (see the data model of the
specification), so aggregation reads the integer payload of a cell. -/

/-- Tag cell of a row, read at the `Tag` column position. -/
def tagCellAt (jt : Nat) (r : List Val) : String := (r.getD jt dCell).toStr

/-- First-seen deduplication, as `Series.unique` orders its result. -/
def uniqueFS : List String → List String
  | [] => []
  | x :: xs => x :: uniqueFS (xs.filter (fun y => y != x))
  termination_by l => l.length
  decreasing_by
    simp only [List.length_cons]
    exact Nat.lt_succ_of_le (List.length_filter_le _ _)

/-- The unique `Tag` values of a frame in first-seen order, as
`[t for t in self.pool_entries['Tag'].unique()]` computes them. -/
def allTagsOf (df : DataFrame) : Except String (List String) :=
  match colIdxOf df ("Tag") with
  | none => .error ("KeyError: Tag")
  | some jt => .ok (uniqueFS (df.rows.map (tagCellAt jt)))

/-- Embedding of `PoolEntries.get_df`: digest when not digested yet,
then return the Pool field (which Python returns as-is, `None`
included). -/
def get_df (s : PoolEntries) : Except String (Option DataFrame × PoolEntries) :=
  if s.digest_called then .ok (s.pool_entries, s)
  else
    match digest s with
    | .error e => .error e
    | .ok (_, s2) => .ok (s2.pool_entries, s2)

/-- Embedding of `PoolEntries.get_all_tags`: digest when not digested
yet, then list the unique tags of the Pool. -/
def get_all_tags (s : PoolEntries) : Except String (List String × PoolEntries) :=
  if s.digest_called then
    match s.pool_entries with
    | none => .error ("TypeError: NoneType object is not subscriptable")
    | some df =>
      match allTagsOf df with
      | .error e => .error e
      | .ok ts => .ok (ts, s)
  else
    match digest s with
    | .error e => .error e
    | .ok (df, s2) =>
      match allTagsOf df with
      | .error e => .error e
      | .ok ts => .ok (ts, s2)

/-- Rows whose tag is not in the ignore list, as
`self.pool_entries[~self.pool_entries['Tag'].isin(ignore_tags)]`. -/
def keptRows (df : DataFrame) (jt : Nat) (ig : List String) : List (List Val) :=
  df.rows.filter (fun r => !(ig.contains (tagCellAt jt r)))

/-- The kept rows of one tag's group, in Pool order (pandas `groupby`
preserves the order of rows inside each group). -/
def groupRows (df : DataFrame) (jt : Nat) (ig : List String) (t : String) :
    List (List Val) :=
  (keptRows df jt ig).filter (fun r => tagCellAt jt r == t)

/-- All rows of one tag in Pool order, ignore list aside. -/
def tagRows (df : DataFrame) (jt : Nat) (t : String) : List (List Val) :=
  df.rows.filter (fun r => tagCellAt jt r == t)

/-- Integer payloads of column `jb` down a run of rows. -/
def colVals (jb : Nat) (rows : List (List Val)) : List Int :=
  rows.map (fun r => (r.getD jb dCell).toInt)

/-- Group maximum, as `groupby('Tag').max()` on the counter column. -/
def maxInt : List Int → Int
  | [] => 0
  | x :: xs => xs.foldl max x

/-- Last value minus first value of a group's column in Pool order,
exactly the `get_change` helper (`x.to_numpy()[[0,-1]]`). -/
def lastSubFirst (l : List Int) : Int := l.getLastD 0 - l.headD 0

/-- Peak of the counter over all of one tag's rows. -/
def highestScore (df : DataFrame) (jt jb : Nat) (t : String) : Int :=
  maxInt (colVals jb (tagRows df jt t))

/-- Net change of the counter between one tag's first and last rows in
Pool order. -/
def changeScore (df : DataFrame) (jt jb : Nat) (t : String) : Int :=
  lastSubFirst (colVals jb (tagRows df jt t))

/-- Code-point comparison of character runs, the order Python's
`sorted` gives strings. -/
def charsLt : List Char → List Char → Bool
  | [], [] => false
  | [], _ :: _ => true
  | _ :: _, [] => false
  | a :: as, b :: bs =>
    if a.val < b.val then true
    else if b.val < a.val then false
    else charsLt as bs

/-- String order used for the sorted group keys of `groupby`. -/
def strLt (a b : String) : Bool := charsLt a.data b.data

/-- Insertion into an ascending run of strings. -/
def sortStrIns (x : String) : List String → List String
  | [] => [x]
  | y :: ys => if strLt y x then y :: sortStrIns x ys else x :: y :: ys

/-- Ascending string sort: the sorted group keys that `groupby`
produces (its default `sort=True`). -/
def sortStr (l : List String) : List String := l.foldr sortStrIns []

/-- Insertion into a run of (tag, score) pairs kept descending by
score. -/
def insPairDesc (x : String × Int) : List (String × Int) → List (String × Int)
  | [] => [x]
  | y :: ys => if x.2 < y.2 then y :: insPairDesc x ys else x :: y :: ys

/-- Descending sort of the aggregated (tag, score) pairs, as
`sort_values(by_col, ascending=False)`; the source's quicksort leaves
the order of equal scores unspecified and no theorem below relies on
it. -/
def sortPairsDesc (l : List (String × Int)) : List (String × Int) :=
  l.foldr insPairDesc []

/-- Embedding of `PoolEntries.get_highest_tags`.  The first component
is the result (or the raised error), the second the `ignore_tags` list
as the call leaves it: "TOTAL" is appended to the received list before
the Pool is touched, so the mutation outlives even a raising call.  A
`none` argument models Python `None` (and any non-list), replaced by a
fresh empty list. -/
def get_highest_tags (s : PoolEntries) (n_tags : Nat) (by_col : String)
    (ignore_tags : Option (List String)) :
    Except String (List String) × List String :=
  let ig := ignore_tags.getD [] ++ ["TOTAL"]
  let res : Except String (List String) :=
    match s.pool_entries with
    | none => .error ("TypeError: NoneType object is not subscriptable")
    | some df =>
      match colIdxOf df ("Tag"), colIdxOf df by_col with
      | some jt, some jb =>
        let rows := keptRows df jt ig
        let keys := sortStr ((rows.map (tagCellAt jt)).dedup)
        let ranked := sortPairsDesc
          (keys.map (fun t => (t, maxInt (colVals jb (groupRows df jt ig t)))))
        .ok ((ranked.take n_tags).map (fun p => p.1))
      | _, _ => .error ("KeyError: column not found")
  (res, ig)

/-- Embedding of `PoolEntries.get_most_changed_tags`: as
`get_highest_tags` but ranking by the group's last value minus its
first value in Pool order. -/
def get_most_changed_tags (s : PoolEntries) (n_tags : Nat) (by_col : String)
    (ignore_tags : Option (List String)) :
    Except String (List String) × List String :=
  let ig := ignore_tags.getD [] ++ ["TOTAL"]
  let res : Except String (List String) :=
    match s.pool_entries with
    | none => .error ("TypeError: NoneType object is not subscriptable")
    | some df =>
      match colIdxOf df ("Tag"), colIdxOf df by_col with
      | some jt, some jb =>
        let rows := keptRows df jt ig
        let keys := sortStr ((rows.map (tagCellAt jt)).dedup)
        let ranked := sortPairsDesc
          (keys.map (fun t => (t, lastSubFirst (colVals jb (groupRows df jt ig t)))))
        .ok ((ranked.take n_tags).map (fun p => p.1))
      | _, _ => .error ("KeyError: column not found")
  (res, ig)

/-- Digested Pool fixture for the peak ranking: tags A, B, C and the
synthetic TOTAL peak at 500, 900, 300 and 1700 in `TotalUsedBytes`. -/
def fx7df : DataFrame :=
  ⟨fx1cols,
   [[Val.s ("A"), Val.d 1, Val.d 1, Val.i 400, Val.i 0, Val.i 0],
    [Val.s ("B"), Val.d 1, Val.d 1, Val.i 900, Val.i 0, Val.i 0],
    [Val.s ("C"), Val.d 1, Val.d 1, Val.i 300, Val.i 0, Val.i 0],
    [Val.s ("TOTAL"), Val.d 1, Val.d 1, Val.i 1600, Val.i 0, Val.i 0],
    [Val.s ("A"), Val.d 2, Val.d 2, Val.i 500, Val.i 0, Val.i 0],
    [Val.s ("B"), Val.d 2, Val.d 2, Val.i 100, Val.i 0, Val.i 0],
    [Val.s ("C"), Val.d 2, Val.d 2, Val.i 200, Val.i 0, Val.i 0],
    [Val.s ("TOTAL"), Val.d 2, Val.d 2, Val.i 1700, Val.i 0, Val.i 0]]⟩

/-- Pipeline with the peak-ranking fixture already digested. -/
def fx7s : PoolEntries := ⟨none, some fx7df, true⟩

/-- Digested Pool fixture for the delta ranking: in `PagedDiff`, tag X
runs 10, 10, 90 (delta +80) and tag Y runs 5, 50, 5 (delta 0). -/
def fx6df : DataFrame :=
  ⟨fx1cols,
   [[Val.s ("X"), Val.d 1, Val.d 1, Val.i 0, Val.i 10, Val.i 0],
    [Val.s ("Y"), Val.d 1, Val.d 1, Val.i 0, Val.i 5, Val.i 0],
    [Val.s ("X"), Val.d 2, Val.d 2, Val.i 0, Val.i 10, Val.i 0],
    [Val.s ("Y"), Val.d 2, Val.d 2, Val.i 0, Val.i 50, Val.i 0],
    [Val.s ("X"), Val.d 3, Val.d 3, Val.i 0, Val.i 90, Val.i 0],
    [Val.s ("Y"), Val.d 3, Val.d 3, Val.i 0, Val.i 5, Val.i 0]]⟩

/-- Pipeline with the delta-ranking fixture already digested. -/
def fx6s : PoolEntries := ⟨none, some fx6df, true⟩

/-- The Pool that digesting the one-file fixture produces: the two real
rows and the totals row, sorted by `DateTimeUTC` (the last datetime
column), with the derived `TotalDiff` column appended. -/
def fx1final : DataFrame :=
  ⟨fx1cols ++ [⟨"TotalDiff", "int64"⟩],
   [[Val.s ("Aa"), Val.d 1, Val.d 1, Val.i 10, Val.i 1, Val.i 2, Val.i 3],
    [Val.s ("TOTAL"), Val.d 1, Val.d 1, Val.i 30, Val.i 4, Val.i 6, Val.i 10],
    [Val.s ("Bb"), Val.d 2, Val.d 2, Val.i 20, Val.i 3, Val.i 4, Val.i 7]]⟩

/-- Pipeline state after digesting the one-file fixture. -/
def fx1s1 : PoolEntries := ⟨none, some fx1final, true⟩

/-!  Reporting boundary (`PoolEntries.do_plot`, `PoolEntries.show_plot`).

`do_plot` validates its arguments, digests when needed, collects the
most-changed and highest tag lists, unions them behind "TOTAL" and the
include list, and hands the result to `show_plot`.  The rendering body
of `show_plot` (pivot, rescale, draw) belongs to the external plotting
collaborator, outside the core per the specification; the model keeps
its validations and the Pool access, and reduces the rendering call to
the description handed over. -/

/-- The call handed to the rendering collaborator. -/
structure RenderCall where
  tags : List String
  timestamp_tag : String
  by_col : String
deriving DecidableEq

/-- The recognized metric columns, exactly the `valid_cols` list of the
source. -/
def valid_cols : List String :=
  ["TotalUsedBytes", "PagedDiff", "NonPagedDiff", "TotalDiff",
   "PagedUsedBytes", "NonPagedUsedBytes"]

/-- Embedding of `PoolEntries.show_plot` up to the rendering boundary:
re-validate the arguments, touch the Pool, and emit the render
description. -/
def show_plot (s : PoolEntries) (tags : List String)
    (timestamp_tag by_col : String) : Except String RenderCall :=
  if !(["DateTime", "DateTimeUTC"].contains timestamp_tag) then
    .error ("Invalid timestamp tag")
  else if !(valid_cols.contains by_col) then
    .error ("Invalid column name")
  else
    match s.pool_entries with
    | none => .error ("TypeError: NoneType object is not subscriptable")
    | some _ => .ok ⟨tags, timestamp_tag, by_col⟩

/-- The `ignore_tags` object as `do_plot`'s caller sees it after a
selection call: a caller-supplied list aliases the mutated list, a
Python `None` never surfaces the callee's fresh local list. -/
def threadIg (ig : Option (List String)) (after : List String) :
    Option (List String) :=
  match ig with
  | none => none
  | some _ => some after

/-- Append the members of `ts` not yet present, preserving first-seen
order, as the `for t in ...: if t not in all_tags: all_tags.append(t)`
loops do. -/
def addNew (acc : List String) (ts : List String) : List String :=
  ts.foldl (fun a t => if a.contains t then a else a ++ [t]) acc

/-- Embedding of `PoolEntries.do_plot`: validate the timestamp tag and
the metric column first (raising before any digestion or rendering),
digest when not digested yet, collect the two selection lists (the same
`ignore_tags` object threaded through both calls), union
`TOTAL`/include/most-changed/highest preserving first-seen order, and
hand the result to `show_plot`. -/
def do_plot (s : PoolEntries) (by_col timestamp_tag : String)
    (ignore_tags include_tags : Option (List String))
    (n_most_changed n_highest : Int) :
    Except String (RenderCall × PoolEntries) :=
  if !(["DateTime", "DateTimeUTC"].contains timestamp_tag) then
    .error ("Invalid timestamp tag")
  else if !(valid_cols.contains by_col) then
    .error ("Invalid column name")
  else
    let inc := include_tags.getD []
    let step : Except String PoolEntries :=
      if s.digest_called then .ok s
      else
        match digest s with
        | .error e => .error e
        | .ok (_, s2) => .ok s2
    match step with
    | .error e => .error e
    | .ok s1 =>
      let pass1 : Except String (List String) × Option (List String) :=
        if n_most_changed > 0 then
          let r := get_most_changed_tags s1 n_most_changed.toNat by_col ignore_tags
          (r.1, threadIg ignore_tags r.2)
        else (.ok [], ignore_tags)
      match pass1.1 with
      | .error e => .error e
      | .ok most_changed =>
        let pass2 : Except String (List String) × Option (List String) :=
          if n_highest > 0 then
            let r := get_highest_tags s1 n_highest.toNat by_col pass1.2
            (r.1, threadIg pass1.2 r.2)
          else (.ok [], pass1.2)
        match pass2.1 with
        | .error e => .error e
        | .ok highest =>
          let all_tags := addNew (addNew (addNew ["TOTAL"] inc) most_changed) highest
          match show_plot s1 all_tags timestamp_tag by_col with
          | .error e => .error e
          | .ok rc => .ok (rc, s1)

/-- The Python default-argument object of `get_highest_tags` after `k`
calls that omit `ignore_tags`: the `[]` default is evaluated once at
definition time and every such call appends to that one shared list. -/
def highestDefaultCell (s : PoolEntries) (n : Nat) (bc : String) : Nat → List String
  | 0 => []
  | k + 1 => (get_highest_tags s n bc (some (highestDefaultCell s n bc k))).2

/-- The Python default-argument object of `get_most_changed_tags` after
`k` calls that omit `ignore_tags`. -/
def mostChangedDefaultCell (s : PoolEntries) (n : Nat) (bc : String) :
    Nat → List String
  | 0 => []
  | k + 1 => (get_most_changed_tags s n bc (some (mostChangedDefaultCell s n bc k))).2

/-!  Generic list helpers used to reason about positional row access. -/

theorem getD_set_ne {α : Type} (l : List α) {i j : Nat} (v d : α) (h : i ≠ j) :
    (l.set i v).getD j d = l.getD j d := by
  simp [List.getD_eq_getElem?_getD, List.getElem?_set_ne h]

theorem getD_set_self {α : Type} (l : List α) {i : Nat} (v d : α) (h : i < l.length) :
    (l.set i v).getD i d = v := by
  simp [List.getD_eq_getElem?_getD, List.getElem?_set_self h]

theorem getD_append_left {α : Type} {l m : List α} {i : Nat} (d : α) (h : i < l.length) :
    (l ++ m).getD i d = l.getD i d := by
  simp [List.getD_eq_getElem?_getD, List.getElem?_append_left h]

theorem getD_append_length {α : Type} (l : List α) (v d : α) :
    (l ++ [v]).getD l.length d = v := by
  simp [List.getD_eq_getElem?_getD]

/-- The column-setting loop of `totalRow` leaves every index it never
writes unchanged. -/
theorem foldl_set_untouched (df : DataFrame) (ps : List (Nat × Col)) (r : List Val)
    (j : Nat) (d : Val) (hj : ∀ p ∈ ps, p.1 ≠ j) :
    (ps.foldl (totStep df) r).getD j d = r.getD j d := by
  induction ps generalizing r with
  | nil => rfl
  | cons p ps ih =>
    simp only [List.foldl_cons]
    rw [ih _ (fun q hq => hj q (List.mem_cons_of_mem _ hq))]
    by_cases h : strStartsWith p.2.dtype ("int")
    · simp [totStep, h, List.getD_eq_getElem?_getD,
        List.getElem?_set_ne (hj p (List.mem_cons_self _ _))]
    · simp [totStep, h]

/-- The column-setting loop of `totalRow` preserves row width. -/
theorem foldl_set_length (df : DataFrame) (ps : List (Nat × Col)) (r : List Val) :
    (ps.foldl (totStep df) r).length = r.length := by
  induction ps generalizing r with
  | nil => rfl
  | cons p ps ih =>
    simp only [List.foldl_cons]
    rw [ih]
    by_cases h : strStartsWith p.2.dtype ("int") <;> simp [totStep, h]

/-- Cell-level reading of the column-setting loop of `totalRow`: a
position paired with its column in the iteration list ends up holding
the column sum when the dtype is an integer kind and its previous value
otherwise. -/
theorem foldl_set_at_mem (df : DataFrame) (ps : List (Nat × Col)) (r : List Val)
    (j : Nat) (c : Col) (d : Val)
    (hnd : (ps.map Prod.fst).Nodup) (hmem : (j, c) ∈ ps) (hlen : j < r.length) :
    (ps.foldl (totStep df) r).getD j d =
      if strStartsWith c.dtype ("int") then Val.i (intSum df j) else r.getD j d := by
  induction ps generalizing r with
  | nil => cases hmem
  | cons p ps ih =>
    simp only [List.map_cons, List.nodup_cons] at hnd
    rcases List.mem_cons.mp hmem with hp | hp
    · subst hp
      simp only [List.foldl_cons]
      have hnotin : ∀ q ∈ ps, q.1 ≠ j := by
        intro q hq hqj
        have hmm : q.1 ∈ ps.map Prod.fst := List.mem_map_of_mem Prod.fst hq
        rw [hqj] at hmm
        exact hnd.1 hmm
      rw [foldl_set_untouched df ps _ j d hnotin]
      by_cases h : strStartsWith c.dtype ("int")
      · simp [totStep, h, List.getD_eq_getElem?_getD, List.getElem?_set_self hlen]
      · simp [totStep, h]
    · have hne : p.1 ≠ j := by
        intro hpj
        have hmm : (j, c).1 ∈ ps.map Prod.fst := List.mem_map_of_mem Prod.fst hp
        rw [← hpj] at hmm
        exact hnd.1 hmm
      simp only [List.foldl_cons]
      by_cases h : strStartsWith p.2.dtype ("int")
      · rw [show totStep df r p = r.set p.1 (Val.i (intSum df p.1)) from if_pos h,
          ih _ hnd.2 hp (by simpa using hlen)]
        rw [getD_set_ne _ _ _ hne]
      · rw [show totStep df r p = r from if_neg h, ih _ hnd.2 hp hlen]

/-- A position below the length of a list is paired with the list's
entry there in the list's enumeration. -/
theorem getD_mem_enum {α : Type} (l : List α) (j : Nat) (d : α) (h : j < l.length) :
    (j, l.getD j d) ∈ l.enum := by
  rw [List.mem_enum_iff_getElem?]
  simp [List.getD_eq_getElem?_getD, List.getElem?_eq_getElem h]

/-- The positions of a list's enumeration are pairwise distinct. -/
theorem enum_fst_nodup {α : Type} (l : List α) : (l.enum.map Prod.fst).Nodup := by
  rw [List.enum_map_fst]
  exact List.nodup_range _

/-- A label found in the schema names a position inside it. -/
theorem colIdxOf_lt (df : DataFrame) (name : String) (j : Nat)
    (h : colIdxOf df name = some j) : j < df.cols.length := by
  have hh := List.findIdx?_eq_some_iff_findIdx_eq.mp h
  exact hh.1

/-- The totals series has the width of the row it was copied from,
whenever the `Tag` label exists in the schema. -/
theorem totalRow_length (df : DataFrame) (r0 : List Val) (jt : Nat)
    (hjt : colIdxOf df ("Tag") = some jt) :
    (totalRow df r0).length = r0.length := by
  simp only [totalRow, setCol, hjt]
  rw [foldl_set_length]
  exact List.length_set ..

/-- C1: on any non-empty rectangular Snapshot Table whose schema names
are distinct and whose `Tag` column is not of an integer dtype,
`add_totals_row` returns the input table with exactly one extra row
appended as the last row; in that row the `Tag` cell is "TOTAL", every
column whose dtype is an integer kind holds the sum of that column over
all real rows of the input, and every other column holds the value of
the input's row index 0. -/
theorem C1_add_totals_row_appends_total
    (df : DataFrame) (r0 : List Val) (rest : List (List Val))
    (hrows : df.rows = r0 :: rest)
    (hrect : ∀ r ∈ df.rows, r.length = df.cols.length)
    (_hnames : (df.cols.map Col.name).Nodup)
    (jt : Nat) (hjt : colIdxOf df ("Tag") = some jt)
    (hjtd : strStartsWith (df.cols.getD jt ⟨"", ""⟩).dtype ("int") = false) :
    ∃ t : List Val,
      add_totals_row df = .ok ⟨df.cols, df.rows ++ [t]⟩ ∧
      t.length = df.cols.length ∧
      getCellByName ⟨df.cols, df.rows ++ [t]⟩ t ("Tag") = some (Val.s ("TOTAL")) ∧
      (∀ j, j < df.cols.length →
        strStartsWith (df.cols.getD j ⟨"", ""⟩).dtype ("int") = true →
        t.getD j dCell = Val.i ((df.rows.map (fun r => (r.getD j dCell).toInt)).sum)) ∧
      (∀ j, j < df.cols.length → j ≠ jt →
        strStartsWith (df.cols.getD j ⟨"", ""⟩).dtype ("int") = false →
        t.getD j dCell = r0.getD j dCell) := by
  have hr0mem : r0 ∈ df.rows := by
    rw [hrows]
    exact List.mem_cons_self _ _
  have hr0len : r0.length = df.cols.length := hrect r0 hr0mem
  have hjtlt : jt < df.cols.length := colIdxOf_lt df _ jt hjt
  have hbaselen : ∀ j, j < df.cols.length →
      j < (setCol df ("Tag") (Val.s ("TOTAL")) r0).length := by
    intro j hj
    simp only [setCol, hjt, List.length_set]
    omega
  have hTag : (totalRow df r0).getD jt dCell = Val.s ("TOTAL") := by
    unfold totalRow
    rw [foldl_set_at_mem df _ _ jt (df.cols.getD jt ⟨"", ""⟩) _
      (enum_fst_nodup _) (getD_mem_enum _ _ _ hjtlt) (hbaselen jt hjtlt)]
    rw [if_neg (by rw [hjtd]; exact Bool.false_ne_true)]
    simp only [setCol, hjt]
    exact getD_set_self _ _ _ (by omega)
  refine ⟨totalRow df r0, ?_, ?_, ?_, ?_, ?_⟩
  · unfold add_totals_row
    rw [hrows]
    rfl
  · rw [totalRow_length df r0 jt hjt]
    exact hr0len
  · have hcid : colIdxOf ⟨df.cols, df.rows ++ [totalRow df r0]⟩ ("Tag") = some jt := hjt
    simp only [getCellByName, hcid]
    exact congrArg some hTag
  · intro j hj hint
    unfold totalRow
    rw [foldl_set_at_mem df _ _ j (df.cols.getD j ⟨"", ""⟩) _
      (enum_fst_nodup _) (getD_mem_enum _ _ _ hj) (hbaselen j hj)]
    rw [if_pos hint]
    rfl
  · intro j hj hne hnint
    unfold totalRow
    rw [foldl_set_at_mem df _ _ j (df.cols.getD j ⟨"", ""⟩) _
      (enum_fst_nodup _) (getD_mem_enum _ _ _ hj) (hbaselen j hj)]
    rw [if_neg (by rw [hnint]; exact Bool.false_ne_true)]
    simp only [setCol, hjt]
    exact getD_set_ne _ _ _ (fun hh => hne hh.symm)

/-- C1 witness: the totals-row characterization instantiated on a
concrete table. -/
theorem C1_add_totals_row_appends_total_witness :
    ∃ t : List Val,
      add_totals_row C1df = .ok ⟨C1df.cols, C1df.rows ++ [t]⟩ ∧
      t.length = C1df.cols.length ∧
      getCellByName ⟨C1df.cols, C1df.rows ++ [t]⟩ t ("Tag") = some (Val.s ("TOTAL")) ∧
      (∀ j, j < C1df.cols.length →
        strStartsWith (C1df.cols.getD j ⟨"", ""⟩).dtype ("int") = true →
        t.getD j dCell = Val.i ((C1df.rows.map (fun r => (r.getD j dCell).toInt)).sum)) ∧
      (∀ j, j < C1df.cols.length → j ≠ 0 →
        strStartsWith (C1df.cols.getD j ⟨"", ""⟩).dtype ("int") = false →
        t.getD j dCell = [Val.s ("Aa"), Val.d 1, Val.i 3, Val.f 2].getD j dCell) :=
  C1_add_totals_row_appends_total C1df
    [Val.s ("Aa"), Val.d 1, Val.i 3, Val.f 2]
    [[Val.s ("Bb"), Val.d 2, Val.i 4, Val.f 5]]
    rfl (by decide) (by decide) 0 (by rfl) (by decide)

/-- Label lookup depends only on the schema. -/
theorem colIdxOf_congr {a b : DataFrame} (h : a.cols = b.cols) (name : String) :
    colIdxOf a name = colIdxOf b name := by
  unfold colIdxOf
  rw [h]

/-- Inversion of a successful `add_totals_row`. -/
theorem add_totals_row_ok_inv {d out : DataFrame} (h : add_totals_row d = .ok out) :
    ∃ r0, d.rows.head? = some r0 ∧ out = ⟨d.cols, d.rows ++ [totalRow d r0]⟩ := by
  unfold add_totals_row at h
  cases hh : d.rows.head? with
  | none =>
    rw [hh] at h
    cases h
  | some r0 =>
    rw [hh] at h
    injection h with h
    exact ⟨r0, rfl, h.symm⟩

/-- A successful `add_totals_row` keeps the schema and, when the `Tag`
label exists and the input is rectangular, keeps every row (the totals
row included) at the schema's width. -/
theorem add_totals_row_props {d out : DataFrame} (h : add_totals_row d = .ok out)
    (jt : Nat) (hjt : colIdxOf d ("Tag") = some jt)
    (hrect : ∀ r ∈ d.rows, r.length = d.cols.length) :
    out.cols = d.cols ∧ (∀ r ∈ out.rows, r.length = d.cols.length) := by
  obtain ⟨r0, hh, rfl⟩ := add_totals_row_ok_inv h
  refine ⟨rfl, ?_⟩
  intro r hr
  rcases List.mem_append.mp hr with hr | hr
  · exact hrect r hr
  · have hrt : r = totalRow d r0 := by simpa using hr
    subst hrt
    rw [totalRow_length d r0 jt hjt]
    exact hrect r0 (List.mem_of_mem_head? (by simp [hh]))

/-- Pointwise properties of the normalization loop: when every buffered
frame carries the common schema `C`, is rectangular and has a `Tag`
column, every normalized frame carries `C` and stays rectangular. -/
theorem mapExc_props (C : List Col) (jt0 : Nat)
    (hTag : C.findIdx? (fun c => c.name == "Tag") = some jt0) :
    ∀ (dfs out : List DataFrame),
    mapExc add_totals_row dfs = .ok out →
    (∀ d ∈ dfs, d.cols = C) →
    (∀ d ∈ dfs, ∀ r ∈ d.rows, r.length = C.length) →
    ∀ o ∈ out, o.cols = C ∧ (∀ r ∈ o.rows, r.length = C.length) := by
  intro dfs
  induction dfs with
  | nil =>
    intro out h _ _ o ho
    unfold mapExc at h
    injection h with h
    rw [← h] at ho
    cases ho
  | cons d ds ih =>
    intro out h hC hrect o ho
    unfold mapExc at h
    cases h1 : add_totals_row d with
    | error e =>
      rw [h1] at h
      cases h
    | ok o0 =>
      rw [h1] at h
      cases h2 : mapExc add_totals_row ds with
      | error e =>
        rw [h2] at h
        cases h
      | ok os =>
        rw [h2] at h
        injection h with h
        rw [← h] at ho
        have hdC : d.cols = C := hC d (List.mem_cons_self _ _)
        rcases List.mem_cons.mp ho with rfl | ho
        · have hjt : colIdxOf d ("Tag") = some jt0 := by
            unfold colIdxOf
            rw [hdC]
            exact hTag
          have hp := add_totals_row_props h1 jt0 hjt
            (by
              intro r hr
              rw [hdC]
              exact hrect d (List.mem_cons_self _ _) r hr)
          exact ⟨hp.1.trans hdC, by rw [← hdC]; exact hp.2⟩
        · exact ih os h2 (fun x hx => hC x (List.mem_cons_of_mem _ hx))
            (fun x hx => hrect x (List.mem_cons_of_mem _ hx)) o ho

/-- Inserting into the sorted run permutes pushing the row on top. -/
theorem insRow_perm (jd : Nat) (x : List Val) (l : List (List Val)) :
    (insRow jd x l).Perm (x :: l) := by
  induction l with
  | nil => exact List.Perm.refl _
  | cons y ys ih =>
    unfold insRow
    by_cases h : (y.getD jd dCell).dtKey < (x.getD jd dCell).dtKey
    · rw [if_pos h]
      exact (ih.cons y).trans (List.Perm.swap x y ys)
    · rw [if_neg h]

/-- The row sort permutes the rows. -/
theorem sortRowsByKey_perm (jd : Nat) (rows : List (List Val)) :
    (sortRowsByKey jd rows).Perm rows := by
  induction rows with
  | nil => exact List.Perm.refl _
  | cons r rs ih =>
    unfold sortRowsByKey at ih ⊢
    simp only [List.foldr_cons]
    exact (insRow_perm jd r _).trans (ih.cons r)

/-- Full inversion of a successful `digest`: the guard was clear, every
stage succeeded, and the new state holds the Pool with the buffer
dropped and the flag set. -/
theorem digest_ok_inv {s : PoolEntries} {df : DataFrame} {s2 : PoolEntries}
    (h : digest s = .ok (df, s2)) :
    s.digest_called = false ∧
    ∃ dfs normed pooled jd,
      s.individual_data_frames = some dfs ∧
      mapExc add_totals_row dfs = .ok normed ∧
      concatDFs normed = .ok pooled ∧
      detectDateColIdx pooled.cols = some jd ∧
      addTotalDiff ⟨pooled.cols, sortRowsByKey jd pooled.rows⟩ = .ok df ∧
      s2 = ⟨none, some df, true⟩ := by
  unfold digest at h
  by_cases hc : s.digest_called
  · rw [if_pos hc] at h
    cases h
  · rw [if_neg hc] at h
    refine ⟨by simpa using hc, ?_⟩
    cases hb : s.individual_data_frames with
    | none =>
      rw [hb] at h
      cases h
    | some dfs =>
      rw [hb] at h
      dsimp only at h
      cases hm : mapExc add_totals_row dfs with
      | error e =>
        rw [hm] at h
        cases h
      | ok normed =>
        rw [hm] at h
        dsimp only at h
        cases hcc : concatDFs normed with
        | error e =>
          rw [hcc] at h
          cases h
        | ok pooled =>
          rw [hcc] at h
          dsimp only at h
          cases hdd : detectDateColIdx pooled.cols with
          | none =>
            rw [hdd] at h
            cases h
          | some jd =>
            rw [hdd] at h
            dsimp only at h
            cases htd : addTotalDiff ⟨pooled.cols, sortRowsByKey jd pooled.rows⟩ with
            | error e =>
              rw [htd] at h
              cases h
            | ok final =>
              rw [htd] at h
              dsimp only at h
              injection h with h
              injection h with h1 h2
              subst h1
              exact ⟨dfs, normed, pooled, jd, rfl, hm, hcc, hdd, htd, h2.symm⟩

/-- The normalization loop succeeds on a buffer of non-empty frames and
keeps every frame's schema. -/
theorem mapExc_total : ∀ (dfs : List DataFrame), (∀ d ∈ dfs, d.rows ≠ []) →
    ∃ out, mapExc add_totals_row dfs = .ok out ∧
      out.map DataFrame.cols = dfs.map DataFrame.cols := by
  intro dfs
  induction dfs with
  | nil => exact fun _ => ⟨[], rfl, rfl⟩
  | cons d ds ih =>
    intro h
    have hone : ∃ o, add_totals_row d = .ok o ∧ o.cols = d.cols := by
      unfold add_totals_row
      cases hh : d.rows.head? with
      | none =>
        exact absurd (List.head?_eq_none_iff.mp hh) (h d (List.mem_cons_self _ _))
      | some r0 => exact ⟨_, rfl, rfl⟩
    obtain ⟨o, ho, hocols⟩ := hone
    obtain ⟨os, hos, hmap⟩ := ih (fun x hx => h x (List.mem_cons_of_mem _ hx))
    refine ⟨o :: os, ?_, ?_⟩
    · show mapExc add_totals_row (d :: ds) = .ok (o :: os)
      unfold mapExc
      rw [ho]
      dsimp only
      rw [hos]
    · simp [hmap, hocols]

/-- A pipeline that has not digested yet, holds at least one non-empty
frame, and whose common schema carries a datetime column and the two
diff counters, digests successfully into the expected post-state. -/
theorem digest_first_ok (s : PoolEntries) (C : List Col) (d0 : DataFrame)
    (ds : List DataFrame)
    (hc : s.digest_called = false)
    (hbuf : s.individual_data_frames = some (d0 :: ds))
    (hC : ∀ d ∈ d0 :: ds, d.cols = C)
    (hnonempty : ∀ d ∈ d0 :: ds, d.rows ≠ [])
    (jd0 jp0 jn0 : Nat)
    (hdt : detectDateColIdx C = some jd0)
    (hpd : C.findIdx? (fun c => c.name == "PagedDiff") = some jp0)
    (hnpd : C.findIdx? (fun c => c.name == "NonPagedDiff") = some jn0) :
    ∃ df, digest s = .ok (df, ⟨none, some df, true⟩) := by
  obtain ⟨normed, hm, hmap⟩ := mapExc_total _ hnonempty
  cases normed with
  | nil => simp at hmap
  | cons o0 os =>
    simp only [List.map_cons] at hmap
    injection hmap with h1 _
    have ho0C : o0.cols = C := h1.trans (hC d0 (List.mem_cons_self _ _))
    have hpool : concatDFs (o0 :: os) =
        .ok ⟨o0.cols, ((o0 :: os).map (fun x => x.rows)).flatten⟩ := rfl
    have hdd : detectDateColIdx o0.cols = some jd0 := by
      rw [ho0C]
      exact hdt
    obtain ⟨final, hfinal⟩ :
        ∃ final,
          addTotalDiff
            ⟨o0.cols,
              sortRowsByKey jd0 (((o0 :: os).map (fun x => x.rows)).flatten)⟩ =
          .ok final := by
      unfold addTotalDiff
      have hp1 :
          colIdxOf
            ⟨o0.cols,
              sortRowsByKey jd0 (((o0 :: os).map (fun x => x.rows)).flatten)⟩
            ("PagedDiff") = some jp0 := by
        unfold colIdxOf
        dsimp only
        rw [ho0C]
        exact hpd
      have hp2 :
          colIdxOf
            ⟨o0.cols,
              sortRowsByKey jd0 (((o0 :: os).map (fun x => x.rows)).flatten)⟩
            ("NonPagedDiff") = some jn0 := by
        unfold colIdxOf
        dsimp only
        rw [ho0C]
        exact hnpd
      rw [hp1, hp2]
      dsimp only
      cases h3 :
          colIdxOf
            ⟨o0.cols,
              sortRowsByKey jd0 (((o0 :: os).map (fun x => x.rows)).flatten)⟩
            ("TotalDiff") with
      | none => exact ⟨_, rfl⟩
      | some jt => exact ⟨_, rfl⟩
    refine ⟨final, ?_⟩
    unfold digest
    rw [if_neg (by rw [hc]; exact Bool.false_ne_true)]
    rw [hbuf]
    dsimp only
    rw [hm]
    dsimp only
    rw [hpool]
    dsimp only
    rw [hdd]
    dsimp only
    rw [hfinal]

/-- C4: a pipeline that has not digested yet and holds well-formed data
digests successfully on the first call, and the second call on the
resulting state fails with the designated repeated-call error instead
of recomputing or returning the Pool. -/
theorem C4_digest_single_shot (s : PoolEntries) (C : List Col) (d0 : DataFrame)
    (ds : List DataFrame)
    (hc : s.digest_called = false)
    (hbuf : s.individual_data_frames = some (d0 :: ds))
    (hC : ∀ d ∈ d0 :: ds, d.cols = C)
    (hnonempty : ∀ d ∈ d0 :: ds, d.rows ≠ [])
    (jd0 jp0 jn0 : Nat)
    (hdt : detectDateColIdx C = some jd0)
    (hpd : C.findIdx? (fun c => c.name == "PagedDiff") = some jp0)
    (hnpd : C.findIdx? (fun c => c.name == "NonPagedDiff") = some jn0) :
    ∃ df s2, digest s = .ok (df, s2) ∧ s2.digest_called = true ∧
      digest s2 = .error ("digest() called again") := by
  obtain ⟨df, hdf⟩ :=
    digest_first_ok s C d0 ds hc hbuf hC hnonempty jd0 jp0 jn0 hdt hpd hnpd
  exact ⟨df, ⟨none, some df, true⟩, hdf, rfl, rfl⟩

/-- C4 witness: the single-shot behavior on the concrete one-file
pipeline. -/
theorem C4_digest_single_shot_witness :
    ∃ df s2, digest fx1s0 = .ok (df, s2) ∧ s2.digest_called = true ∧
      digest s2 = .error ("digest() called again") :=
  C4_digest_single_shot fx1s0 fx1cols fx1df [] rfl rfl (by decide) (by decide)
    2 4 5 (by rfl) (by rfl) (by rfl)

/-- The fresh `TotalDiff` column is found at position zero of the
appended singleton schema. -/
theorem findIdx?_totaldiff_singleton :
    List.findIdx? (fun c => c.name == "TotalDiff")
      [(⟨"TotalDiff", "int64"⟩ : Col)] = some 0 := by
  rfl

/-- C3: after a successful `digest` of a buffer of rectangular frames
sharing a schema that has a `Tag` column and no `TotalDiff` column,
every row of the returned Pool (the synthesized totals rows included)
carries a `TotalDiff` cell equal to that row's `PagedDiff` plus its
`NonPagedDiff`; and normalization introduces no `TotalDiff` column, so
the column exists on no table before consolidation. -/
theorem C3_totaldiff_rowwise (s : PoolEntries) (df : DataFrame) (s2 : PoolEntries)
    (C : List Col) (dfs : List DataFrame) (jt0 : Nat)
    (hbuf : s.individual_data_frames = some dfs)
    (hC : ∀ d ∈ dfs, d.cols = C)
    (hrect : ∀ d ∈ dfs, ∀ r ∈ d.rows, r.length = C.length)
    (hTag : C.findIdx? (fun c => c.name == "Tag") = some jt0)
    (hTD : C.findIdx? (fun c => c.name == "TotalDiff") = none)
    (hdig : digest s = .ok (df, s2)) :
    (∀ r ∈ df.rows, ∀ p q,
      getCellByName df r ("PagedDiff") = some (Val.i p) →
      getCellByName df r ("NonPagedDiff") = some (Val.i q) →
      getCellByName df r ("TotalDiff") = some (Val.i (p + q))) ∧
    (∀ d out, d ∈ dfs → add_totals_row d = .ok out →
      colIdxOf out ("TotalDiff") = none) := by
  have hconj2 : ∀ d out, d ∈ dfs → add_totals_row d = .ok out →
      colIdxOf out ("TotalDiff") = none := by
    intro d out hd hok
    obtain ⟨r0, -, rfl⟩ := add_totals_row_ok_inv hok
    unfold colIdxOf
    dsimp only
    rw [hC d hd]
    exact hTD
  refine ⟨?_, hconj2⟩
  obtain ⟨hcf, dfs', normed, pooled, jd, hbuf', hm, hcc, hdd, htd, hs2⟩ :=
    digest_ok_inv hdig
  rw [hbuf] at hbuf'
  injection hbuf' with hbuf'
  subst hbuf'
  have hnp := mapExc_props C jt0 hTag dfs normed hm hC hrect
  cases normed with
  | nil =>
    unfold concatDFs at hcc
    cases hcc
  | cons o0 os =>
    unfold concatDFs at hcc
    injection hcc with hcc
    subst hcc
    have ho0C : o0.cols = C := (hnp o0 (List.mem_cons_self _ _)).1
    have hrectP :
        ∀ r ∈ ((o0 :: os).map (fun x => x.rows)).flatten, r.length = C.length := by
      intro r hr
      obtain ⟨rl, hrl, hrm⟩ := List.mem_flatten.mp hr
      obtain ⟨o, hom, rfl⟩ := List.mem_map.mp hrl
      exact (hnp o hom).2 r hrm
    unfold addTotalDiff at htd
    cases hjp :
        colIdxOf
          ⟨o0.cols, sortRowsByKey jd (((o0 :: os).map (fun x => x.rows)).flatten)⟩
          ("PagedDiff") with
    | none =>
      rw [hjp] at htd
      cases htd
    | some jp =>
      rw [hjp] at htd
      cases hjn :
          colIdxOf
            ⟨o0.cols, sortRowsByKey jd (((o0 :: os).map (fun x => x.rows)).flatten)⟩
            ("NonPagedDiff") with
      | none =>
        rw [hjn] at htd
        cases htd
      | some jn =>
        rw [hjn] at htd
        dsimp only at htd
        have hTDs :
            colIdxOf
              ⟨o0.cols, sortRowsByKey jd (((o0 :: os).map (fun x => x.rows)).flatten)⟩
              ("TotalDiff") = none := by
          unfold colIdxOf
          dsimp only
          rw [ho0C]
          exact hTD
        rw [hTDs] at htd
        dsimp only at htd
        injection htd with htd
        subst htd
        have hjplt : jp < C.length := by
          have hh := colIdxOf_lt _ _ _ hjp
          dsimp only at hh
          rw [ho0C] at hh
          exact hh
        have hjnlt : jn < C.length := by
          have hh := colIdxOf_lt _ _ _ hjn
          dsimp only at hh
          rw [ho0C] at hh
          exact hh
        have hjpC : C.findIdx? (fun c => c.name == "PagedDiff") = some jp := by
          unfold colIdxOf at hjp
          dsimp only at hjp
          rw [ho0C] at hjp
          exact hjp
        have hjnC : C.findIdx? (fun c => c.name == "NonPagedDiff") = some jn := by
          unfold colIdxOf at hjn
          dsimp only at hjn
          rw [ho0C] at hjn
          exact hjn
        intro r hr p q hp hq
        dsimp only at hr
        obtain ⟨r1, hr1, rfl⟩ := List.mem_map.mp hr
        have hr1mem : r1 ∈ ((o0 :: os).map (fun x => x.rows)).flatten :=
          (sortRowsByKey_perm jd _).mem_iff.mp hr1
        have hr1len : r1.length = C.length := hrectP r1 hr1mem
        unfold getCellByName colIdxOf at hp hq ⊢
        dsimp only at hp hq ⊢
        rw [List.findIdx?_append, ho0C, hjpC] at hp
        rw [List.findIdx?_append, ho0C, hjnC] at hq
        dsimp only [Option.or, Option.map] at hp hq
        injection hp with hp
        injection hq with hq
        rw [getD_append_left dCell (by rw [hr1len]; exact hjplt)] at hp
        rw [getD_append_left dCell (by rw [hr1len]; exact hjnlt)] at hq
        rw [List.findIdx?_append, ho0C, hTD, findIdx?_totaldiff_singleton]
        dsimp only [Option.or, Option.map]
        rw [Nat.zero_add]
        rw [show C.length = r1.length from hr1len.symm, getD_append_length]
        rw [hp, hq]
        rfl

/-- C3 witness: the row-wise `TotalDiff` equation on the digested
one-file fixture pipeline. -/
theorem C3_totaldiff_rowwise_witness :
    ∃ df s2, digest fx1s0 = .ok (df, s2) ∧
      (∀ r ∈ df.rows, ∀ p q,
        getCellByName df r ("PagedDiff") = some (Val.i p) →
        getCellByName df r ("NonPagedDiff") = some (Val.i q) →
        getCellByName df r ("TotalDiff") = some (Val.i (p + q))) := by
  obtain ⟨df, hdf⟩ := digest_first_ok fx1s0 fx1cols fx1df [] rfl rfl (by decide)
    (by decide) 2 4 5 (by rfl) (by rfl) (by rfl)
  exact ⟨df, ⟨none, some df, true⟩, hdf,
    (C3_totaldiff_rowwise fx1s0 df _ fx1cols [fx1df] 0 rfl (by decide) (by decide)
      (by rfl) (by rfl) hdf).1⟩

/-- Insertion into the descending run permutes pushing the pair on
top. -/
theorem insPairDesc_perm (x : String × Int) (l : List (String × Int)) :
    (insPairDesc x l).Perm (x :: l) := by
  induction l with
  | nil => exact List.Perm.refl _
  | cons y ys ih =>
    unfold insPairDesc
    by_cases h : x.2 < y.2
    · rw [if_pos h]
      exact (ih.cons y).trans (List.Perm.swap x y ys)
    · rw [if_neg h]

/-- The descending pair sort permutes its input. -/
theorem sortPairsDesc_perm (l : List (String × Int)) :
    (sortPairsDesc l).Perm l := by
  induction l with
  | nil => exact List.Perm.refl _
  | cons x xs ih =>
    unfold sortPairsDesc at ih ⊢
    simp only [List.foldr_cons]
    exact (insPairDesc_perm x _).trans (ih.cons x)

/-- Insertion keeps the run descending by score. -/
theorem insPairDesc_sorted (x : String × Int) (l : List (String × Int))
    (h : l.Pairwise (fun a b => b.2 ≤ a.2)) :
    (insPairDesc x l).Pairwise (fun a b => b.2 ≤ a.2) := by
  induction l with
  | nil => exact List.pairwise_singleton _ _
  | cons y ys ih =>
    rw [List.pairwise_cons] at h
    unfold insPairDesc
    by_cases hc : x.2 < y.2
    · rw [if_pos hc]
      rw [List.pairwise_cons]
      refine ⟨?_, ih h.2⟩
      intro z hz
      have hz2 : z ∈ x :: ys := (insPairDesc_perm x ys).mem_iff.mp hz
      rcases List.mem_cons.mp hz2 with rfl | hz3
      · exact le_of_lt hc
      · exact h.1 z hz3
    · rw [if_neg hc]
      rw [List.pairwise_cons]
      refine ⟨?_, List.pairwise_cons.mpr h⟩
      intro z hz
      rcases List.mem_cons.mp hz with rfl | hz2
      · exact le_of_not_lt hc
      · exact le_trans (h.1 z hz2) (le_of_not_lt hc)

/-- The descending pair sort is descending by score. -/
theorem sortPairsDesc_sorted (l : List (String × Int)) :
    (sortPairsDesc l).Pairwise (fun a b => b.2 ≤ a.2) := by
  induction l with
  | nil => exact List.Pairwise.nil
  | cons x xs ih =>
    unfold sortPairsDesc at ih ⊢
    simp only [List.foldr_cons]
    exact insPairDesc_sorted x _ ih

/-- Insertion into the ascending string run permutes pushing the string
on top. -/
theorem sortStrIns_perm (x : String) (l : List String) :
    (sortStrIns x l).Perm (x :: l) := by
  induction l with
  | nil => exact List.Perm.refl _
  | cons y ys ih =>
    unfold sortStrIns
    by_cases h : strLt y x
    · rw [if_pos h]
      exact (ih.cons y).trans (List.Perm.swap x y ys)
    · rw [if_neg h]

/-- The key sort permutes its input. -/
theorem sortStr_perm (l : List String) : (sortStr l).Perm l := by
  induction l with
  | nil => exact List.Perm.refl _
  | cons x xs ih =>
    unfold sortStr at ih ⊢
    simp only [List.foldr_cons]
    exact (sortStrIns_perm x _).trans (ih.cons x)

/-- Shared shape of both selection operations: rank the keys by a score,
take the first `n`.  The result holds `min n` of the keys, only keys,
weakly descending by score, and every selected key's score dominates
every unselected key's score. -/
theorem rankSelect_props (n : Nat) (keys : List String) (f : String → Int)
    (res : List String)
    (hres : res =
      ((sortPairsDesc (keys.map (fun t => (t, f t)))).take n).map (fun p => p.1)) :
    res.length = min n keys.length ∧
    (∀ a ∈ res, a ∈ keys) ∧
    res.Pairwise (fun a b => f b ≤ f a) ∧
    (∀ a ∈ res, ∀ b ∈ keys, ¬ b ∈ res → f b ≤ f a) := by
  subst hres
  have hperm := sortPairsDesc_perm (keys.map (fun t => (t, f t)))
  have hsorted := sortPairsDesc_sorted (keys.map (fun t => (t, f t)))
  have hform : ∀ pr ∈ sortPairsDesc (keys.map (fun t => (t, f t))),
      pr.2 = f pr.1 ∧ pr.1 ∈ keys := by
    intro pr hpr
    obtain ⟨t, ht, hpr2⟩ := List.mem_map.mp (hperm.mem_iff.mp hpr)
    rw [← hpr2]
    exact ⟨rfl, ht⟩
  have htake : ∀ pr ∈ (sortPairsDesc (keys.map (fun t => (t, f t)))).take n,
      pr ∈ sortPairsDesc (keys.map (fun t => (t, f t))) :=
    fun pr hpr => (List.take_sublist n _).subset hpr
  refine ⟨?_, ?_, ?_, ?_⟩
  · rw [List.length_map, List.length_take, hperm.length_eq, List.length_map]
  · intro a ha
    obtain ⟨pr, hpr, rfl⟩ := List.mem_map.mp ha
    exact (hform pr (htake pr hpr)).2
  · have hptake : ((sortPairsDesc (keys.map (fun t => (t, f t)))).take n).Pairwise
        (fun a b => b.2 ≤ a.2) :=
      List.Pairwise.sublist (List.take_sublist n _) hsorted
    rw [List.pairwise_map]
    refine hptake.imp_of_mem ?_
    intro pr1 pr2 h1 h2 hle
    rw [← (hform pr1 (htake pr1 h1)).1, ← (hform pr2 (htake pr2 h2)).1]
    exact hle
  · intro a ha b hb hbn
    obtain ⟨pa, hpa, rfl⟩ := List.mem_map.mp ha
    have hbp : (b, f b) ∈ sortPairsDesc (keys.map (fun t => (t, f t))) :=
      hperm.mem_iff.mpr (List.mem_map_of_mem (fun t => (t, f t)) hb)
    have hsplit := hsorted
    rw [← List.take_append_drop n (sortPairsDesc (keys.map (fun t => (t, f t))))]
      at hsplit hbp
    obtain ⟨-, -, hcross⟩ := List.pairwise_append.mp hsplit
    rcases List.mem_append.mp hbp with hbt | hbd
    · exact absurd (List.mem_map_of_mem (fun p => p.1) hbt) hbn
    · have hdom := hcross pa hpa (b, f b) hbd
      rw [(hform pa (htake pa hpa)).1] at hdom
      exact hdom

/-- A group of the filtered frame equals the tag's full group whenever
the tag is not ignored: the ignore filter removes no row of an
unignored tag. -/
theorem groupRows_eq_tagRows (df : DataFrame) (jt : Nat) (ig : List String)
    (t : String) (ht : ig.contains t = false) :
    groupRows df jt ig t = tagRows df jt t := by
  unfold groupRows keptRows tagRows
  rw [List.filter_filter]
  apply List.filter_congr
  intro r _
  cases heq : (tagCellAt jt r == t) with
  | false => simp [heq]
  | true =>
    have hteq : tagCellAt jt r = t := eq_of_beq heq
    rw [hteq, ht]
    simp

/-- Computation of `get_highest_tags` on a pipeline whose Pool holds a
frame with the `Tag` and ranked columns. -/
theorem get_highest_tags_eq (s : PoolEntries) (df : DataFrame)
    (n : Nat) (by_col : String) (igl : List String) (jt jb : Nat)
    (hpool : s.pool_entries = some df)
    (hjt : colIdxOf df ("Tag") = some jt)
    (hjb : colIdxOf df by_col = some jb) :
    (get_highest_tags s n by_col (some igl)).1 =
      .ok (((sortPairsDesc
        ((sortStr (((keptRows df jt (igl ++ ["TOTAL"])).map (tagCellAt jt)).dedup)).map
          (fun t => (t, maxInt (colVals jb (groupRows df jt (igl ++ ["TOTAL"]) t)))))).take
            n).map (fun p => p.1)) := by
  unfold get_highest_tags
  rw [hpool]
  dsimp only
  rw [hjt, hjb]
  rfl

/-- Computation of `get_most_changed_tags` on a pipeline whose Pool
holds a frame with the `Tag` and ranked columns. -/
theorem get_most_changed_tags_eq (s : PoolEntries) (df : DataFrame)
    (n : Nat) (by_col : String) (igl : List String) (jt jb : Nat)
    (hpool : s.pool_entries = some df)
    (hjt : colIdxOf df ("Tag") = some jt)
    (hjb : colIdxOf df by_col = some jb) :
    (get_most_changed_tags s n by_col (some igl)).1 =
      .ok (((sortPairsDesc
        ((sortStr (((keptRows df jt (igl ++ ["TOTAL"])).map (tagCellAt jt)).dedup)).map
          (fun t => (t, lastSubFirst (colVals jb (groupRows df jt (igl ++ ["TOTAL"]) t)))))).take
            n).map (fun p => p.1)) := by
  unfold get_most_changed_tags
  rw [hpool]
  dsimp only
  rw [hjt, hjb]
  rfl

/-- Every candidate tag (a distinct tag of the rows kept after the
ignore filter) is outside the ignore list, is not "TOTAL", and appears
on a Pool row. -/
theorem kept_tag_facts (df : DataFrame) (jt : Nat) (itl : List String) :
    ∀ t, t ∈ ((keptRows df jt (itl ++ ["TOTAL"])).map (tagCellAt jt)).dedup →
      (itl ++ ["TOTAL"]).contains t = false ∧ ¬ t ∈ itl ∧ t ≠ "TOTAL" ∧
      ∃ r ∈ df.rows, tagCellAt jt r = t := by
  intro t ht
  rw [List.mem_dedup] at ht
  obtain ⟨r, hrk, hrt⟩ := List.mem_map.mp ht
  unfold keptRows at hrk
  have hrf := List.mem_filter.mp hrk
  have hcont : (itl ++ ["TOTAL"]).contains (tagCellAt jt r) = false := by
    have hh := hrf.2
    rwa [Bool.not_eq_true'] at hh
  rw [hrt] at hcont
  have hnm : ¬ t ∈ itl ++ ["TOTAL"] := by simpa using hcont
  refine ⟨hcont, ?_, ?_, r, hrf.1, hrt⟩
  · exact fun hmem => hnm (List.mem_append.mpr (Or.inl hmem))
  · exact fun heq => hnm (List.mem_append.mpr (Or.inr (by simp [heq])))

/-- C7: on a digested pipeline, `get_highest_tags` considers exactly the
distinct tags outside `ignore_tags ∪ {TOTAL}`, and returns `min n` of
them (so fewer when fewer distinct tags exist), each a real Pool tag,
ordered weakly descending by the tag's maximum observed `by_col` value
over all its snapshots, every returned tag's peak dominating every
unreturned candidate's peak. -/
theorem C7_get_highest_tags_ranks_peaks (s : PoolEntries) (df : DataFrame)
    (n : Nat) (by_col : String) (itl : List String) (jt jb : Nat)
    (hpool : s.pool_entries = some df)
    (hjt : colIdxOf df ("Tag") = some jt)
    (hjb : colIdxOf df by_col = some jb) :
    ∃ res,
      (get_highest_tags s n by_col (some itl)).1 = .ok res ∧
      res.length =
        min n (((keptRows df jt (itl ++ ["TOTAL"])).map (tagCellAt jt)).dedup).length ∧
      (∀ t ∈ res, ¬ t ∈ itl ∧ t ≠ "TOTAL" ∧ ∃ r ∈ df.rows, tagCellAt jt r = t) ∧
      res.Pairwise (fun a b => highestScore df jt jb b ≤ highestScore df jt jb a) ∧
      (∀ a ∈ res,
        ∀ b ∈ ((keptRows df jt (itl ++ ["TOTAL"])).map (tagCellAt jt)).dedup,
        ¬ b ∈ res → highestScore df jt jb b ≤ highestScore df jt jb a) := by
  have hcall := get_highest_tags_eq s df n by_col itl jt jb hpool hjt hjb
  obtain ⟨hlen, hmemk, hpw, hdom⟩ := rankSelect_props n
    (sortStr (((keptRows df jt (itl ++ ["TOTAL"])).map (tagCellAt jt)).dedup))
    (fun t => maxInt (colVals jb (groupRows df jt (itl ++ ["TOTAL"]) t))) _ rfl
  have hkeys : ∀ t,
      t ∈ sortStr (((keptRows df jt (itl ++ ["TOTAL"])).map (tagCellAt jt)).dedup) ↔
      t ∈ ((keptRows df jt (itl ++ ["TOTAL"])).map (tagCellAt jt)).dedup :=
    fun t => (sortStr_perm _).mem_iff
  have hscore : ∀ t,
      t ∈ ((keptRows df jt (itl ++ ["TOTAL"])).map (tagCellAt jt)).dedup →
      maxInt (colVals jb (groupRows df jt (itl ++ ["TOTAL"]) t)) =
        highestScore df jt jb t := by
    intro t ht
    unfold highestScore
    rw [groupRows_eq_tagRows df jt _ t (kept_tag_facts df jt itl t ht).1]
  refine ⟨_, hcall, ?_, ?_, ?_, ?_⟩
  · rw [hlen, (sortStr_perm _).length_eq]
  · intro t htr
    exact (kept_tag_facts df jt itl t ((hkeys t).mp (hmemk t htr))).2
  · refine hpw.imp_of_mem ?_
    intro a b ha hb hle
    rw [hscore a ((hkeys a).mp (hmemk a ha)), hscore b ((hkeys b).mp (hmemk b hb))]
      at hle
    exact hle
  · intro a ha b hb hbn
    have hd := hdom a ha b ((hkeys b).mpr hb) hbn
    rw [hscore a ((hkeys a).mp (hmemk a ha)), hscore b hb] at hd
    exact hd

/-- C6: on a digested pipeline, `get_most_changed_tags` considers
exactly the distinct tags outside `ignore_tags ∪ {TOTAL}` (a tag with
zero or negative delta included), and returns `min n` of them, each a
real Pool tag, ordered weakly descending by the tag's `by_col` value at
its last row in Pool order minus the value at its first row in that
order, every returned tag's delta dominating every unreturned
candidate's delta (so negative deltas sort below positive ones). -/
theorem C6_get_most_changed_tags_ranks_deltas (s : PoolEntries) (df : DataFrame)
    (n : Nat) (by_col : String) (itl : List String) (jt jb : Nat)
    (hpool : s.pool_entries = some df)
    (hjt : colIdxOf df ("Tag") = some jt)
    (hjb : colIdxOf df by_col = some jb) :
    ∃ res,
      (get_most_changed_tags s n by_col (some itl)).1 = .ok res ∧
      res.length =
        min n (((keptRows df jt (itl ++ ["TOTAL"])).map (tagCellAt jt)).dedup).length ∧
      (∀ t ∈ res, ¬ t ∈ itl ∧ t ≠ "TOTAL" ∧ ∃ r ∈ df.rows, tagCellAt jt r = t) ∧
      res.Pairwise (fun a b => changeScore df jt jb b ≤ changeScore df jt jb a) ∧
      (∀ a ∈ res,
        ∀ b ∈ ((keptRows df jt (itl ++ ["TOTAL"])).map (tagCellAt jt)).dedup,
        ¬ b ∈ res → changeScore df jt jb b ≤ changeScore df jt jb a) := by
  have hcall := get_most_changed_tags_eq s df n by_col itl jt jb hpool hjt hjb
  obtain ⟨hlen, hmemk, hpw, hdom⟩ := rankSelect_props n
    (sortStr (((keptRows df jt (itl ++ ["TOTAL"])).map (tagCellAt jt)).dedup))
    (fun t => lastSubFirst (colVals jb (groupRows df jt (itl ++ ["TOTAL"]) t))) _ rfl
  have hkeys : ∀ t,
      t ∈ sortStr (((keptRows df jt (itl ++ ["TOTAL"])).map (tagCellAt jt)).dedup) ↔
      t ∈ ((keptRows df jt (itl ++ ["TOTAL"])).map (tagCellAt jt)).dedup :=
    fun t => (sortStr_perm _).mem_iff
  have hscore : ∀ t,
      t ∈ ((keptRows df jt (itl ++ ["TOTAL"])).map (tagCellAt jt)).dedup →
      lastSubFirst (colVals jb (groupRows df jt (itl ++ ["TOTAL"]) t)) =
        changeScore df jt jb t := by
    intro t ht
    unfold changeScore
    rw [groupRows_eq_tagRows df jt _ t (kept_tag_facts df jt itl t ht).1]
  refine ⟨_, hcall, ?_, ?_, ?_, ?_⟩
  · rw [hlen, (sortStr_perm _).length_eq]
  · intro t htr
    exact (kept_tag_facts df jt itl t ((hkeys t).mp (hmemk t htr))).2
  · refine hpw.imp_of_mem ?_
    intro a b ha hb hle
    rw [hscore a ((hkeys a).mp (hmemk a ha)), hscore b ((hkeys b).mp (hmemk b hb))]
      at hle
    exact hle
  · intro a ha b hb hbn
    have hd := hdom a ha b ((hkeys b).mpr hb) hbn
    rw [hscore a ((hkeys a).mp (hmemk a ha)), hscore b hb] at hd
    exact hd

/-- C7 witness: on the fixture the call returns exactly `["B", "A"]`
(TOTAL's 1700 peak excluded) and the ranking properties hold there. -/
theorem C7_get_highest_tags_ranks_peaks_witness :
    (get_highest_tags fx7s 2 ("TotalUsedBytes") (some [])).1 = .ok ["B", "A"] ∧
    (∃ res,
      (get_highest_tags fx7s 2 ("TotalUsedBytes") (some [])).1 = .ok res ∧
      res.length =
        min 2 (((keptRows fx7df 0 ([] ++ ["TOTAL"])).map (tagCellAt 0)).dedup).length ∧
      (∀ t ∈ res, ¬ t ∈ ([] : List String) ∧ t ≠ "TOTAL" ∧
        ∃ r ∈ fx7df.rows, tagCellAt 0 r = t) ∧
      res.Pairwise (fun a b => highestScore fx7df 0 3 b ≤ highestScore fx7df 0 3 a) ∧
      (∀ a ∈ res,
        ∀ b ∈ ((keptRows fx7df 0 ([] ++ ["TOTAL"])).map (tagCellAt 0)).dedup,
        ¬ b ∈ res → highestScore fx7df 0 3 b ≤ highestScore fx7df 0 3 a)) :=
  ⟨by rfl,
   C7_get_highest_tags_ranks_peaks fx7s fx7df 2 ("TotalUsedBytes") [] 0 3
     rfl (by rfl) (by rfl)⟩

/-- C6 witness: on the fixture the call returns exactly `["X"]` (delta
+80 beats Y's intermediate spike, whose first-to-last delta is 0) and
the ranking properties hold there. -/
theorem C6_get_most_changed_tags_ranks_deltas_witness :
    (get_most_changed_tags fx6s 1 ("PagedDiff") (some [])).1 = .ok ["X"] ∧
    (∃ res,
      (get_most_changed_tags fx6s 1 ("PagedDiff") (some [])).1 = .ok res ∧
      res.length =
        min 1 (((keptRows fx6df 0 ([] ++ ["TOTAL"])).map (tagCellAt 0)).dedup).length ∧
      (∀ t ∈ res, ¬ t ∈ ([] : List String) ∧ t ≠ "TOTAL" ∧
        ∃ r ∈ fx6df.rows, tagCellAt 0 r = t) ∧
      res.Pairwise (fun a b => changeScore fx6df 0 4 b ≤ changeScore fx6df 0 4 a) ∧
      (∀ a ∈ res,
        ∀ b ∈ ((keptRows fx6df 0 ([] ++ ["TOTAL"])).map (tagCellAt 0)).dedup,
        ¬ b ∈ res → changeScore fx6df 0 4 b ≤ changeScore fx6df 0 4 a)) :=
  ⟨by rfl,
   C6_get_most_changed_tags_ranks_deltas fx6s fx6df 1 ("PagedDiff") [] 0 4
     rfl (by rfl) (by rfl)⟩

/-- C5 counterexample: on an undigested pipeline with ingested data the
selection operations do not behave as if `digest()` had been called
first — they raise on the `None` Pool (the source guards `get_df` and
`get_all_tags` with `if not self.digest_called: self.digest()` but puts
no such guard in `get_highest_tags` or `get_most_changed_tags`), while
after digesting, the same call succeeds. -/
theorem C5_selection_requires_prior_digest_counterexample :
    digest fx1s0 = .ok (fx1final, fx1s1) ∧
    (get_highest_tags fx1s0 1 ("TotalUsedBytes") (some [])).1 =
      .error ("TypeError: NoneType object is not subscriptable") ∧
    (get_most_changed_tags fx1s0 1 ("TotalUsedBytes") (some [])).1 =
      .error ("TypeError: NoneType object is not subscriptable") ∧
    (get_highest_tags fx1s1 1 ("TotalUsedBytes") (some [])).1 = .ok ["Bb"] ∧
    (get_highest_tags fx1s0 1 ("TotalUsedBytes") (some [])).1 ≠
      (get_highest_tags fx1s1 1 ("TotalUsedBytes") (some [])).1 := by
  refine ⟨rfl, rfl, rfl, rfl, ?_⟩
  intro h
  rw [show (get_highest_tags fx1s0 1 ("TotalUsedBytes") (some [])).1 =
      .error ("TypeError: NoneType object is not subscriptable") from rfl] at h
  rw [show (get_highest_tags fx1s1 1 ("TotalUsedBytes") (some [])).1 =
      .ok ["Bb"] from rfl] at h
  cases h

/-- C5 amended: on an undigested pipeline with ingested data, `get_df`
and `get_all_tags` implicitly trigger digestion (behaving as the same
read on the digested state); the selection operations
`get_highest_tags` and `get_most_changed_tags` do not — they fail on
the still-`None` Pool. -/
theorem C5_amended_read_digest_split (s : PoolEntries) (df : DataFrame)
    (s2 : PoolEntries)
    (hc : s.digest_called = false)
    (hpool : s.pool_entries = none)
    (hdig : digest s = .ok (df, s2)) :
    get_df s = .ok (some df, s2) ∧
    get_df s2 = .ok (some df, s2) ∧
    get_all_tags s = get_all_tags s2 ∧
    (∀ n bc itl, (get_highest_tags s n bc (some itl)).1 =
      .error ("TypeError: NoneType object is not subscriptable")) ∧
    (∀ n bc itl, (get_most_changed_tags s n bc (some itl)).1 =
      .error ("TypeError: NoneType object is not subscriptable")) := by
  obtain ⟨-, dfs, normed, pooled, jd, -, -, -, -, -, hs2⟩ := digest_ok_inv hdig
  subst hs2
  refine ⟨?_, rfl, ?_, ?_, ?_⟩
  · unfold get_df
    rw [if_neg (by rw [hc]; exact Bool.false_ne_true), hdig]
  · unfold get_all_tags
    rw [if_neg (by rw [hc]; exact Bool.false_ne_true), hdig]
    rfl
  · intro n bc itl
    unfold get_highest_tags
    rw [hpool]
  · intro n bc itl
    unfold get_most_changed_tags
    rw [hpool]

/-- C5 amended witness: the split on the concrete one-file pipeline. -/
theorem C5_amended_read_digest_split_witness :
    get_df fx1s0 = .ok (some fx1final, fx1s1) ∧
    get_df fx1s1 = .ok (some fx1final, fx1s1) ∧
    get_all_tags fx1s0 = get_all_tags fx1s1 ∧
    (∀ n bc itl, (get_highest_tags fx1s0 n bc (some itl)).1 =
      .error ("TypeError: NoneType object is not subscriptable")) ∧
    (∀ n bc itl, (get_most_changed_tags fx1s0 n bc (some itl)).1 =
      .error ("TypeError: NoneType object is not subscriptable")) :=
  C5_amended_read_digest_split fx1s0 fx1final fx1s1 rfl rfl (by rfl)

/-- C9: `do_plot` raises on an unrecognized timestamp tag, and on a
recognized timestamp tag with an unrecognized metric column it raises
the column error — in both cases the validation error is produced
before the digest-if-needed step and before any rendering call (the
error carries neither a post-state nor a `RenderCall`, both of which
exist only on the success path), and no default is substituted. -/
theorem C9_do_plot_validates_first (s : PoolEntries) (by_col timestamp_tag : String)
    (ig inc : Option (List String)) (nmc nh : Int) :
    (¬ timestamp_tag ∈ ["DateTime", "DateTimeUTC"] →
      do_plot s by_col timestamp_tag ig inc nmc nh =
        .error ("Invalid timestamp tag")) ∧
    (timestamp_tag ∈ ["DateTime", "DateTimeUTC"] → ¬ by_col ∈ valid_cols →
      do_plot s by_col timestamp_tag ig inc nmc nh =
        .error ("Invalid column name")) := by
  constructor
  · intro hts
    unfold do_plot
    rw [if_pos (by simpa using hts)]
  · intro hts hbc
    have hc1 : (["DateTime", "DateTimeUTC"].contains timestamp_tag) = true := by
      simpa using hts
    unfold do_plot
    rw [hc1]
    rw [if_neg (by decide : ¬((!true) = true))]
    rw [if_pos (by simpa using hbc)]

/-- C9 witness: an unrecognized column ("Bogus") and an unrecognized
timestamp tag each fail with the designated error on a concrete
undigested pipeline. -/
theorem C9_do_plot_validates_first_witness :
    do_plot fx1s0 ("Bogus") ("DateTimeUTC") none none 5 5 =
      .error ("Invalid column name") ∧
    do_plot fx1s0 ("TotalUsedBytes") ("LocalTime") none none 5 5 =
      .error ("Invalid timestamp tag") :=
  ⟨(C9_do_plot_validates_first fx1s0 ("Bogus") ("DateTimeUTC") none none 5 5).2
      (by decide) (by decide),
   (C9_do_plot_validates_first fx1s0 ("TotalUsedBytes") ("LocalTime") none none
      5 5).1 (by decide)⟩

/-- A call to `get_highest_tags` leaves the received `ignore_tags` list
with "TOTAL" appended. -/
theorem get_highest_tags_mutates (s : PoolEntries) (n : Nat) (bc : String)
    (l : List String) :
    (get_highest_tags s n bc (some l)).2 = l ++ ["TOTAL"] := rfl

/-- A call to `get_most_changed_tags` leaves the received `ignore_tags`
list with "TOTAL" appended. -/
theorem get_most_changed_tags_mutates (s : PoolEntries) (n : Nat) (bc : String)
    (l : List String) :
    (get_most_changed_tags s n bc (some l)).2 = l ++ ["TOTAL"] := rfl

/-- C10: both selection operations append "TOTAL" to the very
`ignore_tags` list object they receive — a caller-supplied list is one
element longer after the call — and the one shared default-argument
list accumulates one more "TOTAL" entry with every call that omits the
argument, across otherwise unrelated invocations. -/
theorem C10_ignore_tags_aliasing (s : PoolEntries) (n : Nat) (bc : String) :
    (∀ l, (get_highest_tags s n bc (some l)).2 = l ++ ["TOTAL"] ∧
      ((get_highest_tags s n bc (some l)).2).length = l.length + 1) ∧
    (∀ l, (get_most_changed_tags s n bc (some l)).2 = l ++ ["TOTAL"] ∧
      ((get_most_changed_tags s n bc (some l)).2).length = l.length + 1) ∧
    (∀ k, highestDefaultCell s n bc k = List.replicate k "TOTAL") ∧
    (∀ k, mostChangedDefaultCell s n bc k = List.replicate k "TOTAL") := by
  refine ⟨?_, ?_, ?_, ?_⟩
  · intro l
    refine ⟨get_highest_tags_mutates s n bc l, ?_⟩
    rw [get_highest_tags_mutates s n bc l]
    simp
  · intro l
    refine ⟨get_most_changed_tags_mutates s n bc l, ?_⟩
    rw [get_most_changed_tags_mutates s n bc l]
    simp
  · intro k
    induction k with
    | zero => rfl
    | succ k ih =>
      show (get_highest_tags s n bc (some (highestDefaultCell s n bc k))).2 = _
      rw [get_highest_tags_mutates, ih, ← List.replicate_succ']
  · intro k
    induction k with
    | zero => rfl
    | succ k ih =>
      show (get_most_changed_tags s n bc (some (mostChangedDefaultCell s n bc k))).2 = _
      rw [get_most_changed_tags_mutates, ih, ← List.replicate_succ']

/-- C8: encoding detection inspects the first 64 bytes for a BOM.  The
UTF-8, UTF-32 BE and UTF-16 BE marks are reported as the claim states,
and a file with no matching BOM defaults to "utf-8".  However a file
beginning with the UTF-32 LE BOM `FF FE 00 00` is reported as "utf-16",
not as UTF-32 LE: the `BOM_UTF16` table entry (`FF FE` on a
little-endian host) precedes the `BOM_UTF32_LE` entry and matches first,
so the `utf-32le` table entry is unreachable — the code contradicts its
own BOM table's intent on this input. -/
theorem C8_getencoding_utf32le_shadowed :
    GetEncoding [0xEF, 0xBB, 0xBF, 0x41] = "utf-8" ∧
    GetEncoding [0x00, 0x00, 0xFE, 0xFF, 0x41, 0x00, 0x00, 0x00] = "utf-32be" ∧
    GetEncoding [0xFE, 0xFF, 0x00, 0x41] = "utf-16be" ∧
    GetEncoding [0xFF, 0xFE, 0x41, 0x00] = "utf-16" ∧
    GetEncoding [0x54, 0x61, 0x67, 0x2C] = "utf-8" ∧
    GetEncoding [] = "utf-8" ∧
    GetEncoding [0xFF, 0xFE, 0x00, 0x00, 0x41, 0x00, 0x00, 0x00] = "utf-16" ∧
    GetEncoding [0xFF, 0xFE, 0x00, 0x00, 0x41, 0x00, 0x00, 0x00] ≠ "utf-32le" := by
  decide

end Poolmon
